import Mathlib

/-!
Verification of the urlroulette worker (src/index.ts).

The worker stores submitted URLs in a key-value store under keys
`url.<urlPrefix>.<timestampMillis>`, keeps a sharded counter in the keys
"urlCount" and "urlPrefix", and serves a random URL by drawing a shard
weighted by the estimated population and then a random key of that shard.

This file is a shallow embedding of that code: the KV namespace is an
association list of string pairs, JS `Math.random()` is an explicit rational
argument, `new Date().getTime()` an explicit natural number argument, and the
external WHATWG URL parser and `encodeURIComponent` are function parameters.
A `none` result of the GET handler models the JS handler throwing (reading a
property of `undefined`).
-/

namespace URLRoulette

/-- Model of the JS string operation `a.startsWith(b)`, and also of the
key-matching rule of the backing store's list-by-prefix operation: a
character-list prefix test. -/
def strStartsWith (s p : String) : Bool :=
  p.data.isPrefixOf s.data

/-- Model of the JS string operation `a.endsWith(b)`: character-list suffix
test. -/
def strEndsWith (s suf : String) : Bool :=
  suf.data.isSuffixOf s.data

/-- Model of the Cloudflare KV namespace bound as `env.KV`: an association
list of key-value pairs, most recent binding first; `put` removes the older
binding so the pair list stays duplicate-free. -/
structure KV where
  pairs : List (String × String)
deriving DecidableEq

/-- `env.KV.get(key)`: the bound value, or null (`none`) when absent. -/
def KV.get (kv : KV) (k : String) : Option String :=
  kv.pairs.lookup k

/-- `env.KV.put(key, value)`: last write wins for the key. -/
def KV.put (kv : KV) (k v : String) : KV :=
  ⟨(k, v) :: kv.pairs.filter (fun e => !(e.1 == k))⟩

/-- `env.KV.list({ prefix })`: the stored keys matching the prefix, capped at
the store's 1000-key listing limit. -/
def KV.listKeys (kv : KV) (p : String) : List String :=
  ((kv.pairs.map Prod.fst).filter (fun k => strStartsWith k p)).take 1000

/-- Numeric value of a decimal digit character. -/
def digitVal (c : Char) : Nat := c.toNat - 48

/-- Model of JS `parseInt` on the canonical decimal numerals this program
itself stores ("0", "1", ...): fold up the digit values. (On such numerals
`parseInt` and this fold agree; the program never stores anything else under
its counter keys, as proved below.) -/
def parseIntNat (s : String) : Nat :=
  s.data.foldl (fun n c => n * 10 + digitVal c) 0

/-- Key of a URL Entry (src/index.ts:43): `url.<urlPrefix>.<timestampMillis>`. -/
def urlKey (urlPrefix now : Nat) : String :=
  "url." ++ Nat.repr urlPrefix ++ "." ++ Nat.repr now

/-- Binding of the worker (src/index.ts:1-5): an optional shared secret and
the allowed-origin string. -/
structure Env where
  SECRET : Option String
  ALLOWED_ORIGIN : String
deriving DecidableEq

/-- The parts of the incoming Request the handlers read. -/
structure Req where
  url : String
  authorization : Option String
  body : String
deriving DecidableEq

/-- The parts of the produced Response the spec talks about. -/
structure Resp where
  status : Nat
  body : Option String
  corsHeader : Option String
deriving DecidableEq

/-- status (src/index.ts:149-151): an empty response with the given status. -/
def status (s : Nat) : Resp := ⟨s, none, none⟩

/-- The shared-secret gate of handleCreate and handleStats
(src/index.ts:23-28, 109-114). JS truthiness: an empty-string SECRET is falsy
and disables the check, as does an absent one. -/
def authFailed (env : Env) (req : Req) : Bool :=
  match env.SECRET with
  | none => false
  | some s => if s = "" then false
      else !(req.authorization == some ("Secret " ++ s))

/-- getUrlCount (src/index.ts:136-138): `parseInt(await env.KV.get("urlCount") || "0")`. -/
def getUrlCount (kv : KV) : Nat :=
  parseIntNat ((kv.get "urlCount").getD "0")

/-- getUrlPrefix (src/index.ts:140-142): `parseInt(await env.KV.get("urlPrefix") || "0")`. -/
def getUrlPrefix (kv : KV) : Nat :=
  parseIntNat ((kv.get "urlPrefix").getD "0")

/-- getUrlCountAndPrefix (src/index.ts:125-134): both scalars, joined. -/
def getUrlCountAndPrefix (kv : KV) : Nat × Nat :=
  (getUrlCount kv, getUrlPrefix kv)

/-- handleCreate (src/index.ts:22-62). `urlParses` models the external WHATWG
parser (`new URL(url)` not throwing), `enc` models `encodeURIComponent`, and
`now` models `new Date().getTime()`. Returns the response and the store after
the request. -/
def handleCreate (env : Env) (urlParses : String → Bool) (enc : String → String)
    (kv : KV) (req : Req) (now : Nat) : Resp × KV :=
  if authFailed env req then (status 401, kv) else
  let urlCount := getUrlCount kv
  let urlPrefix := getUrlPrefix kv
  let url := req.body
  if !(strStartsWith url "http://" || strStartsWith url "https://") then
    (status 400, kv)
  else if !urlParses url then (status 400, kv)
  else
    let key := urlKey urlPrefix now
    let kv1 := kv.put key url
    let kv2 := kv1.put ("urlKey." ++ enc url) key
    if urlCount + 1 = 1000 then
      (status 201,
        (kv2.put "urlPrefix" (Nat.repr (urlPrefix + 1))).put "urlCount" "0")
    else
      (status 201, kv2.put "urlCount" (Nat.repr (urlCount + 1)))

/-- rand (src/index.ts:145-147): `Math.floor(Math.random() * max)`, with the
`Math.random()` draw passed in as the rational `q` (a genuine draw has
0 ≤ q < 1). -/
def rand (q : ℚ) (max : ℤ) : ℤ := ⌊q * (max : ℚ)⌋

/-- estimatedTotalUrlCount (src/index.ts:84): `(urlPrefix * 1000) + urlCount`. -/
def estimatedTotalUrlCount (urlCount urlPrefix : Nat) : Nat :=
  urlPrefix * 1000 + urlCount

/-- targetUrlPrefix (src/index.ts:92): `Math.floor(estimatedTargetUrl / 1000)`. -/
def targetUrlPrefix (estimatedTargetUrl : ℤ) : ℤ :=
  Int.fdiv estimatedTargetUrl 1000

/-- JS array indexing `arr[i]`: `undefined` (none) when out of range. -/
def jsIndex (l : List String) (i : ℤ) : Option String :=
  if i < 0 then none else l[i.toNat]?

/-- The sampling branch of handleGet (src/index.ts:69-105). A `none` result
models the JS code throwing: `results.keys[rand(results.keys.length)]` being
`undefined` and `.name` faulting on it. -/
def sampleGet (env : Env) (kv : KV) (q1 q2 : ℚ) : Option Resp :=
  let urlCount := getUrlCount kv
  let urlPrefix := getUrlPrefix kv
  let total := estimatedTotalUrlCount urlCount urlPrefix
  let estimatedTargetUrl := rand q1 (total : ℤ)
  let target := targetUrlPrefix estimatedTargetUrl
  let results := kv.listKeys ("url." ++ Int.repr target)
  match jsIndex results (rand q2 (results.length : ℤ)) with
  | none => none
  | some key => some ⟨200, kv.get key, some env.ALLOWED_ORIGIN⟩

/-- The `JSON.stringify({urlCount, urlPrefix}, undefined, 4)` payload
(src/index.ts:116-122). -/
def statsBody (urlCount urlPrefix : Nat) : String :=
  "\x7b\n    \"urlCount\": " ++ Nat.repr urlCount ++
    ",\n    \"urlPrefix\": " ++ Nat.repr urlPrefix ++ "\n\x7d"

/-- handleStats (src/index.ts:108-123). -/
def handleStats (env : Env) (kv : KV) (req : Req) : Resp :=
  if authFailed env req then status 401
  else ⟨200, some (statsBody (getUrlCount kv) (getUrlPrefix kv)), none⟩

/-- handleGet (src/index.ts:64-106): URL-suffix dispatch to the stats path,
otherwise the sampling flow (which reads nothing from the request). -/
def handleGet (env : Env) (kv : KV) (req : Req) (q1 q2 : ℚ) : Option Resp :=
  if strEndsWith req.url "/stats" then some (handleStats env kv req)
  else sampleGet env kv q1 q2

/-- Store states reachable from the empty store by a sequence of submissions
(with arbitrary environments, requests, clocks and external parser). -/
inductive Reachable : KV → Prop
  | base : Reachable ⟨[]⟩
  | step (env : Env) (urlParses : String → Bool) (enc : String → String)
      (req : Req) (now : Nat) (kv : KV) :
      Reachable kv → Reachable (handleCreate env urlParses enc kv req now).2

/-- Counter well-formedness: each counter key is either absent or holds the
canonical numeral of a value the program wrote (and the stored count never
exceeds 999). -/
def CounterInv (kv : KV) : Prop :=
  (kv.get "urlCount" = none ∨
    ∃ k, k ≤ 999 ∧ kv.get "urlCount" = some (Nat.repr k)) ∧
  (kv.get "urlPrefix" = none ∨ ∃ p, kv.get "urlPrefix" = some (Nat.repr p))

/-! ## Numeral lemmas: the decimal representation round-trips and contains
no dot, so storing counters as strings and embedding shard/timestamp pairs
into key strings is faithful. -/

theorem digitVal_digitChar {m : Nat} (h : m < 10) :
    digitVal (Nat.digitChar m) = m := by
  interval_cases m <;> decide

theorem digitChar_ne_dot {m : Nat} (h : m < 10) : Nat.digitChar m ≠ '.' := by
  interval_cases m <;> decide

theorem toDigitsCore_append (fuel n : Nat) (ds : List Char) :
    Nat.toDigitsCore 10 fuel n ds = Nat.toDigitsCore 10 fuel n [] ++ ds := by
  induction fuel generalizing n ds with
  | zero => simp [Nat.toDigitsCore]
  | succ fuel ih =>
    simp only [Nat.toDigitsCore]
    by_cases h : n / 10 = 0
    · simp [h]
    · simp only [if_neg h]
      rw [ih (n / 10) (Nat.digitChar (n % 10) :: ds),
        ih (n / 10) [Nat.digitChar (n % 10)]]
      simp

theorem toDigitsCore_fuel (f₁ f₂ n : Nat) (ds : List Char) (h₁ : n < f₁)
    (h₂ : n < f₂) :
    Nat.toDigitsCore 10 f₁ n ds = Nat.toDigitsCore 10 f₂ n ds := by
  induction f₁ generalizing f₂ n ds with
  | zero => omega
  | succ f₁ ih =>
    match f₂, h₂ with
    | f₂ + 1, _ =>
      simp only [Nat.toDigitsCore]
      by_cases h : n / 10 = 0
      · simp [h]
      · simp only [if_neg h]
        exact ih f₂ (n / 10) _ (by omega) (by omega)

theorem foldl_toDigits (n : Nat) :
    (Nat.toDigits 10 n).foldl (fun a c => a * 10 + digitVal c) 0 = n := by
  induction n using Nat.strong_induction_on with
  | _ n ih =>
    unfold Nat.toDigits
    simp only [Nat.toDigitsCore]
    by_cases h : n / 10 = 0
    · have hn : n < 10 := by omega
      simp [h, List.foldl, digitVal_digitChar (show n % 10 < 10 by omega)]
      omega
    · rw [if_neg h,
        toDigitsCore_fuel n (n / 10 + 1) (n / 10) _ (by omega) (by omega),
        toDigitsCore_append (n / 10 + 1) (n / 10) [Nat.digitChar (n % 10)],
        show Nat.toDigitsCore 10 (n / 10 + 1) (n / 10) [] =
          Nat.toDigits 10 (n / 10) from rfl,
        List.foldl_append, ih (n / 10) (by omega)]
      simp [List.foldl, digitVal_digitChar (show n % 10 < 10 by omega)]
      omega

/-- Round-trip: parsing the decimal numeral the program writes returns the
number itself. -/
theorem parseIntNat_repr (n : Nat) : parseIntNat (Nat.repr n) = n := by
  unfold parseIntNat Nat.repr
  rw [show ((Nat.toDigits 10 n).asString).data = Nat.toDigits 10 n from rfl]
  exact foldl_toDigits n

theorem repr_inj {m n : Nat} (h : Nat.repr m = Nat.repr n) : m = n := by
  rw [← parseIntNat_repr m, ← parseIntNat_repr n, h]

theorem toDigitsCore_ne_dot (fuel n : Nat) (ds : List Char) (h : '.' ∉ ds) :
    '.' ∉ Nat.toDigitsCore 10 fuel n ds := by
  induction fuel generalizing n ds with
  | zero => simpa [Nat.toDigitsCore] using h
  | succ fuel ih =>
    simp only [Nat.toDigitsCore]
    by_cases h0 : n / 10 = 0
    · simp only [if_pos h0, List.mem_cons]
      rintro (hc | hc)
      · exact digitChar_ne_dot (show n % 10 < 10 by omega) hc.symm
      · exact h hc
    · simp only [if_neg h0]
      refine ih _ _ ?_
      intro hc
      rcases List.mem_cons.mp hc with h1 | h1
      · exact digitChar_ne_dot (show n % 10 < 10 by omega) h1.symm
      · exact h h1

theorem repr_ne_dot (n : Nat) : '.' ∉ (Nat.repr n).data := by
  rw [show (Nat.repr n).data = Nat.toDigits 10 n from rfl]
  exact toDigitsCore_ne_dot _ _ [] (by simp)

theorem append_dot_inj {a b a' b' : List Char} (ha : '.' ∉ a) (ha' : '.' ∉ a')
    (h : a ++ '.' :: b = a' ++ '.' :: b') : a = a' ∧ b = b' := by
  induction a generalizing a' with
  | nil =>
    cases a' with
    | nil => simpa using h
    | cons c t =>
      exfalso
      simp only [List.nil_append, List.cons_append, List.cons.injEq] at h
      exact ha' (h.1 ▸ List.mem_cons_self c t)
  | cons c t ihs =>
    cases a' with
    | nil =>
      exfalso
      simp only [List.nil_append, List.cons_append, List.cons.injEq] at h
      exact ha (h.1 ▸ List.mem_cons_self c t)
    | cons c' t' =>
      simp only [List.cons_append, List.cons.injEq] at h
      have ht := ihs (fun hc => ha (List.mem_cons_of_mem _ hc))
        (fun hc => ha' (List.mem_cons_of_mem _ hc)) h.2
      exact ⟨by rw [h.1, ht.1], ht.2⟩

/-! ## Key-shape lemmas. -/

theorem data_urlKey (p t : Nat) :
    (urlKey p t).data =
      'u' :: 'r' :: 'l' :: '.' ::
        ((Nat.repr p).data ++ '.' :: (Nat.repr t).data) := by
  unfold urlKey
  simp only [String.data_append]
  simp [List.append_assoc]

/-- Distinct shard/timestamp pairs give distinct URL Entry keys: the decimal
numerals contain no dot, so the key decomposes uniquely. -/
theorem urlKey_inj {p t p' t' : Nat} (h : urlKey p t = urlKey p' t') :
    p = p' ∧ t = t' := by
  have hd := congrArg String.data h
  rw [data_urlKey, data_urlKey] at hd
  simp only [List.cons.injEq] at hd
  have hsplit := append_dot_inj (repr_ne_dot p) (repr_ne_dot p')
    hd.2.2.2.2
  exact ⟨repr_inj (String.ext hsplit.1), repr_inj (String.ext hsplit.2)⟩

theorem urlKey_fourth (p t : Nat) : (urlKey p t).data.get? 3 = some '.' := by
  rw [data_urlKey]
  rfl

theorem revKey_fourth (s : String) :
    ("urlKey." ++ s).data.get? 3 = some 'K' := by
  rw [String.data_append,
    show ("urlKey." : String).data = ['u', 'r', 'l', 'K', 'e', 'y', '.'] from rfl]
  rfl

theorem ne_of_fourth {s₁ s₂ : String} (h : s₁.data.get? 3 ≠ s₂.data.get? 3) :
    s₁ ≠ s₂ :=
  fun he => h (by rw [he])

theorem urlKey_ne_urlCount (p t : Nat) : urlKey p t ≠ "urlCount" :=
  ne_of_fourth (by rw [urlKey_fourth]; decide)

theorem urlKey_ne_urlPrefixKey (p t : Nat) : urlKey p t ≠ "urlPrefix" :=
  ne_of_fourth (by rw [urlKey_fourth]; decide)

theorem revKey_ne_urlCount (s : String) : "urlKey." ++ s ≠ "urlCount" :=
  ne_of_fourth (by rw [revKey_fourth]; decide)

theorem revKey_ne_urlPrefixKey (s : String) : "urlKey." ++ s ≠ "urlPrefix" :=
  ne_of_fourth (by rw [revKey_fourth]; decide)

theorem revKey_ne_urlKey (s : String) (p t : Nat) :
    "urlKey." ++ s ≠ urlKey p t :=
  ne_of_fourth (by rw [revKey_fourth, urlKey_fourth]; decide)

/-! ## Store lemmas. -/

theorem lookup_filter_ne (l : List (String × String)) (k k' : String)
    (h : k' ≠ k) :
    (l.filter (fun e => !(e.1 == k))).lookup k' = l.lookup k' := by
  induction l with
  | nil => rfl
  | cons e t ih =>
    obtain ⟨ek, ev⟩ := e
    by_cases he : ek = k
    · subst he
      have h2 : (k' == ek) = false := beq_eq_false_iff_ne.mpr h
      simp [List.filter_cons, List.lookup_cons, h2, ih]
    · have h2 : (ek == k) = false := beq_eq_false_iff_ne.mpr he
      by_cases hk : k' = ek
      · subst hk
        simp [List.filter_cons, List.lookup_cons, h2]
      · have h3 : (k' == ek) = false := beq_eq_false_iff_ne.mpr hk
        simp [List.filter_cons, List.lookup_cons, h2, h3, ih]

/-- Reading back the key just written. -/
theorem KV.get_put_self (kv : KV) (k v : String) :
    (kv.put k v).get k = some v := by
  unfold KV.put KV.get
  simp [List.lookup_cons]

/-- Writing one key leaves every other key's binding unchanged. -/
theorem KV.get_put_other (kv : KV) (k v k' : String) (h : k' ≠ k) :
    (kv.put k v).get k' = kv.get k' := by
  unfold KV.put KV.get
  have h2 : (k' == k) = false := beq_eq_false_iff_ne.mpr h
  simp only [List.lookup_cons, h2]
  exact lookup_filter_ne kv.pairs k k' h

theorem getUrlCount_put_count (kv : KV) (n : Nat) :
    getUrlCount (kv.put "urlCount" (Nat.repr n)) = n := by
  rw [getUrlCount, KV.get_put_self]
  simp [parseIntNat_repr]

theorem getUrlCount_put_zero (kv : KV) :
    getUrlCount (kv.put "urlCount" "0") = 0 := by
  rw [getUrlCount, KV.get_put_self]
  decide

theorem getUrlCount_put_other (kv : KV) (k v : String)
    (h : ("urlCount" : String) ≠ k) :
    getUrlCount (kv.put k v) = getUrlCount kv := by
  rw [getUrlCount, KV.get_put_other _ _ _ _ h, getUrlCount]

theorem getUrlPrefix_put_prefix (kv : KV) (n : Nat) :
    getUrlPrefix (kv.put "urlPrefix" (Nat.repr n)) = n := by
  rw [getUrlPrefix, KV.get_put_self]
  simp [parseIntNat_repr]

theorem getUrlPrefix_put_other (kv : KV) (k v : String)
    (h : ("urlPrefix" : String) ≠ k) :
    getUrlPrefix (kv.put k v) = getUrlPrefix kv := by
  rw [getUrlPrefix, KV.get_put_other _ _ _ _ h, getUrlPrefix]

/-! ## Claim theorems. -/

/-- C4: the estimated total used by retrieval is `urlPrefix * 1000 + urlCount`
for every pair of non-negative integers, and in particular
`estimateTotal(20, 0) = 20` and `estimateTotal(500, 2) = 2500`. -/
theorem estimateTotalFormula :
    estimatedTotalUrlCount 20 0 = 20 ∧ estimatedTotalUrlCount 500 2 = 2500 ∧
    ∀ urlCount urlPrefix : Nat,
      estimatedTotalUrlCount urlCount urlPrefix = urlPrefix * 1000 + urlCount :=
  ⟨by decide, by decide, fun _ _ => rfl⟩

/-- C5 (behaviour of the code at the inputs the claim is about): `rand` has no
guard for a non-positive bound. `rand(0)` evaluates to the ordinary value 0
(for any random draw, here 1/2) instead of failing fast, and a negative bound
yields a negative value (`rand(-3)` gives -2 at draw 1/2). -/
theorem randNoGuard : rand (1 / 2) 0 = 0 ∧ rand (1 / 2) (-3) = -2 := by
  constructor
  · rw [rand]
    norm_num
  · rw [rand, Int.floor_eq_iff]
    norm_num

/-- C1 (behaviour of the code at the failing input): against the empty store
the estimated total is 0, and the GET sampling flow evaluates
`results.keys[rand(0)]` on the empty key list and faults (modelled `none`,
the JS TypeError on reading `.name` of `undefined`) instead of returning an
explicit empty/no-content result. -/
theorem sampleEmptyStoreFaults :
    estimatedTotalUrlCount (getUrlCount ⟨[]⟩) (getUrlPrefix ⟨[]⟩) = 0 ∧
    handleGet ⟨none, "*"⟩ ⟨[]⟩ ⟨"https://host.example/", none, ""⟩ 0 0 = none := by
  constructor
  · decide
  · have e1 : getUrlCount (⟨[]⟩ : KV) = 0 := by decide
    have e2 : getUrlPrefix (⟨[]⟩ : KV) = 0 := by decide
    have hr : rand 0 0 = 0 := by
      rw [rand]
      norm_num
    rw [handleGet, if_neg (by decide)]
    rw [sampleGet]
    simp only [e1, e2, estimatedTotalUrlCount, Nat.zero_mul, Nat.add_zero,
      Nat.cast_zero, hr]
    simp [targetUrlPrefix, KV.listKeys, jsIndex, hr]

/-- C3: shard selection `targetShard = floor(target / 1000)` over targets in
`[0, estimateTotal)` gives every closed shard `s < urlPrefix` exactly 1000
outcomes and the current shard `urlPrefix` exactly `urlCount` outcomes. -/
theorem shardSelectionProportional (c p s : Nat) (hc : c ≤ 1000) (hs : s ≤ p) :
    ((Finset.range (estimatedTotalUrlCount c p)).filter
      (fun t : Nat => targetUrlPrefix (t : ℤ) = (s : ℤ))).card =
      if s = p then c else 1000 := by
  have hfd : ∀ t : Nat, targetUrlPrefix (t : ℤ) = ((t / 1000 : Nat) : ℤ) := by
    intro t
    have h := (Int.ofNat_fdiv t 1000).symm
    simpa [targetUrlPrefix] using h
  have hset : (Finset.range (estimatedTotalUrlCount c p)).filter
      (fun t : Nat => targetUrlPrefix (t : ℤ) = (s : ℤ)) =
      Finset.Ico (1000 * s)
        (min (estimatedTotalUrlCount c p) (1000 * s + 1000)) := by
    ext t
    simp only [Finset.mem_filter, Finset.mem_range, Finset.mem_Ico, hfd,
      Nat.cast_inj, lt_min_iff]
    unfold estimatedTotalUrlCount
    omega
  rw [hset, Nat.card_Ico]
  unfold estimatedTotalUrlCount
  split <;> omega

/-- Witness for C3 at the spec's example: `urlPrefix = 1`, `urlCount = 500`,
shard 0 receives 1000 of the 1500 outcomes. -/
theorem shardSelectionProportional_witness :
    ((Finset.range (estimatedTotalUrlCount 500 1)).filter
      (fun t : Nat => targetUrlPrefix (t : ℤ) = ((0 : Nat) : ℤ))).card =
      if (0 : Nat) = 1 then 500 else 1000 :=
  shardSelectionProportional 500 1 0 (by decide) (by decide)

/-- C6 (behaviour of the code at the failing input): the listing prefix the
sampler uses for shard 1 (`"url." + 1`, no trailing dot) also matches a key
of shard 10, and a concrete listing returns keys of both shards. -/
theorem shardListingPrefixCollision :
    strStartsWith (urlKey 10 1234) ("url." ++ Int.repr (targetUrlPrefix 1000)) = true ∧
    (10 : Nat) ≠ 1 ∧
    KV.listKeys ⟨[(urlKey 1 10, "https://a.example"), (urlKey 10 20, "https://b.example")]⟩
      ("url." ++ Int.repr (targetUrlPrefix 1000)) = [urlKey 1 10, urlKey 10 20] := by
  refine ⟨by decide, by decide, by decide⟩

/-- C9 counterexample: two submissions in the same millisecond land on the
same key `url.0.5`; the second overwrites the first entry, so the first URL
is no longer retrievable byte-for-byte at its key. -/
theorem sameTimestampOverwrite :
    (let e : Env := ⟨none, "*"⟩
     let uP : String → Bool := fun _ => true
     let kv1 := (handleCreate e uP id ⟨[]⟩ ⟨"https://h/", none, "http://a.example"⟩ 5).2
     let kv2 := (handleCreate e uP id kv1 ⟨"https://h/", none, "http://b.example"⟩ 5).2
     kv1.get "url.0.5" = some "http://a.example" ∧
       kv2.get "url.0.5" = some "http://b.example") := by
  decide

/-- C10: GET dispatch is decided by whether the full request URL ends with
"/stats": such requests (including "/anything/stats") go to the
authorization-gated stats path and never sample, and all other GETs run the
sampling flow, which takes no request data at all (so no authorization
check). -/
theorem statsDispatchBySuffix (env : Env) (kv : KV) (req : Req) (q1 q2 : ℚ) :
    (strEndsWith req.url "/stats" = true →
      handleGet env kv req q1 q2 = some (handleStats env kv req)) ∧
    (strEndsWith req.url "/stats" = false →
      handleGet env kv req q1 q2 = sampleGet env kv q1 q2) ∧
    strEndsWith "https://host.example/anything/stats" "/stats" = true := by
  refine ⟨fun h => ?_, fun h => ?_, by decide⟩
  · rw [handleGet, if_pos h]
  · rw [handleGet, if_neg (by simp [h])]

/-- Witness for C10: a URL ending in "/anything/stats" is dispatched to the
stats path. -/
theorem statsDispatchBySuffix_witness :
    handleGet ⟨none, "*"⟩ ⟨[]⟩ ⟨"https://host.example/anything/stats", none, ""⟩ 0 0 =
      some (handleStats ⟨none, "*"⟩ ⟨[]⟩
        ⟨"https://host.example/anything/stats", none, ""⟩) :=
  (statsDispatchBySuffix _ _ _ _ _).1 (by decide)

/-- C7: a POST whose body lacks the http/https scheme or fails URL parsing is
rejected with status 400 and the store is left exactly as it was (no URL
Entry, no reverse-lookup entry, no counter update). -/
theorem invalidUrlRejected (env : Env) (uP : String → Bool)
    (enc : String → String) (kv : KV) (req : Req) (now : Nat)
    (hauth : authFailed env req = false)
    (hbad : (strStartsWith req.body "http://" ||
        strStartsWith req.body "https://") = false ∨ uP req.body = false) :
    handleCreate env uP enc kv req now = (status 400, kv) := by
  rw [handleCreate]
  simp only [hauth, Bool.false_eq_true, if_false]
  rcases hbad with h | h
  · simp [h]
  · rcases hcase : strStartsWith req.body "http://" ||
        strStartsWith req.body "https://" with _ | _
    · simp [hcase]
    · simp [hcase, h]

/-- Witness for C7: `ftp://example.com` is rejected with 400 and no write. -/
theorem invalidUrlRejected_witness :
    handleCreate ⟨none, "*"⟩ (fun _ => true) id ⟨[]⟩
      ⟨"https://h/", none, "ftp://example.com"⟩ 0 = (status 400, ⟨[]⟩) :=
  invalidUrlRejected _ _ _ _ _ _ (by decide) (Or.inl (by decide))

/-- C2: a valid submission at counter `(k, p)` advances the stored counter to
`(k+1, p)` when `k+1 < 1000`, and rolls it to `(0, p+1)` when `k+1` equals
exactly 1000. -/
theorem counterIncrementAndRollover (env : Env) (uP : String → Bool)
    (enc : String → String) (kv : KV) (req : Req) (now : Nat) (k p : Nat)
    (hauth : authFailed env req = false)
    (hscheme : (strStartsWith req.body "http://" ||
        strStartsWith req.body "https://") = true)
    (hparse : uP req.body = true)
    (hk : getUrlCount kv = k) (hp : getUrlPrefix kv = p) :
    (k + 1 < 1000 →
      getUrlCountAndPrefix (handleCreate env uP enc kv req now).2 = (k + 1, p)) ∧
    (k + 1 = 1000 →
      getUrlCountAndPrefix (handleCreate env uP enc kv req now).2 = (0, p + 1)) := by
  rw [handleCreate]
  simp only [hauth, Bool.false_eq_true, if_false, hscheme, hparse,
    Bool.not_true, hk, hp]
  constructor
  · intro hlt
    rw [if_neg (by omega)]
    rw [getUrlCountAndPrefix, getUrlCount_put_count,
      getUrlPrefix_put_other _ _ _ (by decide),
      getUrlPrefix_put_other _ _ _ (revKey_ne_urlPrefixKey _).symm,
      getUrlPrefix_put_other _ _ _ (urlKey_ne_urlPrefixKey _ _).symm, hp]
  · intro heq
    rw [if_pos heq]
    rw [getUrlCountAndPrefix, getUrlCount_put_zero,
      getUrlPrefix_put_other _ _ _ (by decide),
      getUrlPrefix_put_prefix]

/-- Witness for C2: the 1000th submission into shard 0 rolls the counter to
`(0, 1)`. -/
theorem counterIncrementAndRollover_witness :
    getUrlCountAndPrefix
      (handleCreate ⟨none, "*"⟩ (fun _ => true) id ⟨[("urlCount", "999")]⟩
        ⟨"https://h/", none, "https://ex.example/"⟩ 7).2 = (0, 0 + 1) :=
  (counterIncrementAndRollover ⟨none, "*"⟩ (fun _ => true) id
    ⟨[("urlCount", "999")]⟩ ⟨"https://h/", none, "https://ex.example/"⟩ 7 999 0
    (by decide) (by decide) (by decide) (by decide) (by decide)).2 (by decide)

/-- Under CounterInv the loaded count is at most 999. -/
theorem counterInv_getUrlCount {kv : KV} (h : CounterInv kv) :
    getUrlCount kv ≤ 999 := by
  rcases h.1 with h0 | ⟨k, hk, hsome⟩
  · rw [getUrlCount, h0]
    decide
  · rw [getUrlCount, hsome]
    simpa [parseIntNat_repr] using hk

/-- Every submission preserves counter well-formedness. -/
theorem counterInv_step (env : Env) (uP : String → Bool)
    (enc : String → String) (kv : KV) (req : Req) (now : Nat)
    (h : CounterInv kv) :
    CounterInv (handleCreate env uP enc kv req now).2 := by
  rw [handleCreate]
  by_cases h1 : authFailed env req = true
  · simpa [h1] using h
  · by_cases h2 : (!(strStartsWith req.body "http://" ||
        strStartsWith req.body "https://")) = true
    · simpa [h1, h2] using h
    · by_cases h3 : (!uP req.body) = true
      · simpa [h1, h2, h3] using h
      · simp only [h1, h2, h3, Bool.false_eq_true, if_false]
        by_cases h4 : getUrlCount kv + 1 = 1000
        · rw [if_pos h4]
          refine ⟨Or.inr ⟨0, by omega, ?_⟩, Or.inr ⟨getUrlPrefix kv + 1, ?_⟩⟩
          · rw [KV.get_put_self]
            decide
          · rw [KV.get_put_other _ _ _ _ (by decide), KV.get_put_self]
        · rw [if_neg h4]
          refine ⟨Or.inr ⟨getUrlCount kv + 1, ?_, ?_⟩, ?_⟩
          · have := counterInv_getUrlCount h
            omega
          · rw [KV.get_put_self]
          · rw [KV.get_put_other _ _ _ _ (by decide),
              KV.get_put_other _ _ _ _ (revKey_ne_urlPrefixKey _).symm,
              KV.get_put_other _ _ _ _ (urlKey_ne_urlPrefixKey _ _).symm]
            exact h.2

/-- Every reachable store has a well-formed counter. -/
theorem reachable_counterInv {kv : KV} (h : Reachable kv) : CounterInv kv := by
  induction h with
  | base => exact ⟨Or.inl rfl, Or.inl rfl⟩
  | step env uP enc req now kv _ ih => exact counterInv_step env uP enc kv req now ih

/-- C8: loading the counter from the empty store yields `(0, 0)` without
error, and along every sequence of submissions from that bootstrap state the
stored counter keeps `0 ≤ urlCount ≤ 1000` (indeed ≤ 999) and
`urlPrefix ≥ 0`. -/
theorem bootstrapAndCounterInvariant (kv : KV) (h : Reachable kv) :
    getUrlCountAndPrefix ⟨[]⟩ = (0, 0) ∧
    getUrlCount kv ≤ 1000 ∧ 0 ≤ getUrlPrefix kv := by
  refine ⟨by decide, ?_, Nat.zero_le _⟩
  have := counterInv_getUrlCount (reachable_counterInv h)
  omega

/-- Witness for C8 at the bootstrap state itself. -/
theorem bootstrapAndCounterInvariant_witness :
    getUrlCountAndPrefix ⟨[]⟩ = (0, 0) ∧
    getUrlCount ⟨[]⟩ ≤ 1000 ∧ 0 ≤ getUrlPrefix ⟨[]⟩ :=
  bootstrapAndCounterInvariant ⟨[]⟩ Reachable.base

/-- C9 amended: a successful submission writes the URL Entry at
`url.<urlPrefix>.<now>` and reading that key immediately afterwards returns
the submitted URL byte-for-byte; moreover any other submission whose
(current shard, timestamp) pair differs leaves that entry's binding
untouched — so under pairwise-distinct (shard, timestamp) pairs (e.g. a
strictly increasing millisecond clock) every entry sits at a fresh key, is
never overwritten, and stays retrievable verbatim. -/
theorem urlEntryRoundTrip (env : Env) (uP : String → Bool)
    (enc : String → String) (kv : KV) (req : Req) (now : Nat)
    (hauth : authFailed env req = false)
    (hscheme : (strStartsWith req.body "http://" ||
        strStartsWith req.body "https://") = true)
    (hparse : uP req.body = true) :
    ((handleCreate env uP enc kv req now).2).get
        (urlKey (getUrlPrefix kv) now) = some req.body ∧
    ∀ (env₂ : Env) (uP₂ : String → Bool) (enc₂ : String → String) (kv₂ : KV)
      (req₂ : Req) (now₂ : Nat),
      (getUrlPrefix kv₂, now₂) ≠ (getUrlPrefix kv, now) →
      ((handleCreate env₂ uP₂ enc₂ kv₂ req₂ now₂).2).get
          (urlKey (getUrlPrefix kv) now) =
        kv₂.get (urlKey (getUrlPrefix kv) now) := by
  constructor
  · rw [handleCreate]
    simp only [hauth, Bool.false_eq_true, if_false, hscheme, hparse,
      Bool.not_true]
    by_cases h4 : getUrlCount kv + 1 = 1000
    · rw [if_pos h4]
      rw [KV.get_put_other _ _ _ _ (urlKey_ne_urlCount _ _),
        KV.get_put_other _ _ _ _ (urlKey_ne_urlPrefixKey _ _),
        KV.get_put_other _ _ _ _ (revKey_ne_urlKey _ _ _).symm,
        KV.get_put_self]
    · rw [if_neg h4]
      rw [KV.get_put_other _ _ _ _ (urlKey_ne_urlCount _ _),
        KV.get_put_other _ _ _ _ (revKey_ne_urlKey _ _ _).symm,
        KV.get_put_self]
  · intro env₂ uP₂ enc₂ kv₂ req₂ now₂ hne
    have hkey : urlKey (getUrlPrefix kv) now ≠ urlKey (getUrlPrefix kv₂) now₂ := by
      intro he
      obtain ⟨hpe, hte⟩ := urlKey_inj he
      exact hne (by rw [hpe, hte])
    rw [handleCreate]
    by_cases h1 : authFailed env₂ req₂ = true
    · simp [h1]
    · by_cases h2 : (!(strStartsWith req₂.body "http://" ||
          strStartsWith req₂.body "https://")) = true
      · simp [h1, h2]
      · by_cases h3 : (!uP₂ req₂.body) = true
        · simp [h1, h2, h3]
        · simp only [h1, h2, h3, Bool.false_eq_true, if_false]
          by_cases h4 : getUrlCount kv₂ + 1 = 1000
          · rw [if_pos h4]
            rw [KV.get_put_other _ _ _ _ (urlKey_ne_urlCount _ _),
              KV.get_put_other _ _ _ _ (urlKey_ne_urlPrefixKey _ _),
              KV.get_put_other _ _ _ _ (revKey_ne_urlKey _ _ _).symm,
              KV.get_put_other _ _ _ _ hkey]
          · rw [if_neg h4]
            rw [KV.get_put_other _ _ _ _ (urlKey_ne_urlCount _ _),
              KV.get_put_other _ _ _ _ (revKey_ne_urlKey _ _ _).symm,
              KV.get_put_other _ _ _ _ hkey]

/-- Witness for C9 (amended): a concrete submission is readable at its key,
and a later submission at a different timestamp leaves the binding of that
key in its own store untouched. -/
theorem urlEntryRoundTrip_witness :
    ((handleCreate ⟨none, "*"⟩ (fun _ => true) id ⟨[]⟩
        ⟨"https://h/", none, "http://a.example"⟩ 5).2).get
      (urlKey (getUrlPrefix ⟨[]⟩) 5) = some "http://a.example" ∧
    ((handleCreate ⟨none, "*"⟩ (fun _ => true) id ⟨[]⟩
        ⟨"https://h/", none, "http://c.example"⟩ 6).2).get
      (urlKey (getUrlPrefix (⟨[]⟩ : KV)) 5) =
      (⟨[]⟩ : KV).get (urlKey (getUrlPrefix (⟨[]⟩ : KV)) 5) :=
  ⟨(urlEntryRoundTrip ⟨none, "*"⟩ (fun _ => true) id ⟨[]⟩
      ⟨"https://h/", none, "http://a.example"⟩ 5
      (by decide) (by decide) (by decide)).1,
    (urlEntryRoundTrip ⟨none, "*"⟩ (fun _ => true) id ⟨[]⟩
      ⟨"https://h/", none, "http://a.example"⟩ 5
      (by decide) (by decide) (by decide)).2
      ⟨none, "*"⟩ (fun _ => true) id ⟨[]⟩
      ⟨"https://h/", none, "http://c.example"⟩ 6 (by decide)⟩

end URLRoulette
